import Mathlib

/-!
Shallow embedding of the burn-analyzer core (src/parser.rs, src/typechecker.rs,
src/analyzer.rs, src/hover.rs, src/utils.rs).  Text is modelled as `List Char`;
Rust byte offsets become character offsets (exact on ASCII input, which is all
the analyzed language uses).  Rust `HashMap` is modelled as an association list
with insert-replace semantics; only keyed lookup, insertion and entry count are
observed by the claims, and iteration order over open documents is exercised in
both orders where it could matter.
-/

namespace Burn

abbrev Str := List Char

/-- Rust char::is_alphanumeric / is_alphabetic restricted to ASCII (all inputs
considered here are ASCII). -/
def isWordChar (c : Char) : Bool := c.isAlphanum || c = '_'

/-- Rust str::trim. -/
def trimStr (s : Str) : Str :=
  ((s.dropWhile Char.isWhitespace).reverse.dropWhile Char.isWhitespace).reverse

/-- Character scan behind splitWs, carrying the current token reversed. -/
def splitWsAux : Str → Str → List Str
  | [], acc => if acc = [] then [] else [acc.reverse]
  | c :: rest, acc =>
    if c.isWhitespace then
      if acc = [] then splitWsAux rest []
      else acc.reverse :: splitWsAux rest []
    else splitWsAux rest (c :: acc)

/-- Rust str::split_whitespace: maximal runs of non-whitespace, no empties. -/
def splitWs (s : Str) : List Str := splitWsAux s []

/-- Rust str::split(c): splits at every occurrence, keeping empty pieces. -/
def splitOnChar (c : Char) : Str → List Str
  | [] => [[]]
  | d :: rest =>
    if d = c then [] :: splitOnChar c rest
    else
      match splitOnChar c rest with
      | t :: ts => (d :: t) :: ts
      | [] => [[d]]

/-- Rust str::trim_end_matches(c): strips every trailing occurrence of c. -/
def trimEndMatches (c : Char) (s : Str) : Str :=
  (s.reverse.dropWhile (fun d => d = c)).reverse

/-- Rust str::starts_with(pat) for a string pattern. -/
def startsWithStr (pat s : Str) : Bool := pat.isPrefixOf s

/-- First index at which p holds (Rust str::find with a char predicate). -/
def charIdxFrom (p : Char → Bool) : Str → Nat → Option Nat
  | [], _ => none
  | c :: rest, i => if p c then some i else charIdxFrom p rest (i + 1)

def charIdx (p : Char → Bool) (s : Str) : Option Nat := charIdxFrom p s 0

/-- Last index at which p holds (Rust str::rfind with a char predicate). -/
def rcharIdx (p : Char → Bool) (s : Str) : Option Nat :=
  match charIdx p s.reverse with
  | some j => some (s.length - 1 - j)
  | none => none

/-- Rust str::find(pat) for a string pattern: index of first occurrence. -/
def substrIdxFrom (needle : Str) : Str → Nat → Option Nat
  | [], i => if needle.isPrefixOf [] then some i else none
  | c :: rest, i =>
    if needle.isPrefixOf (c :: rest) then some i
    else substrIdxFrom needle rest (i + 1)

def substrIdx (hay needle : Str) : Option Nat := substrIdxFrom needle hay 0

/-- Rust str::contains(pat) for a string pattern. -/
def containsSub (hay needle : Str) : Bool := (substrIdx hay needle).isSome

/-- Slice text[a..b] by character positions. -/
def sliceStr (s : Str) (a b : Nat) : Str := (s.drop a).take (b - a)

/-- Vec::join(" ") over the remaining whitespace tokens. -/
def joinSpace : List Str → Str
  | [] => []
  | [t] => t
  | t :: rest => t ++ ' ' :: joinSpace rest

/-- join with an arbitrary separator (format! "{}", v.join(", ")). -/
def joinWith (sep : Str) : List Str → Str
  | [] => []
  | [t] => t
  | t :: rest => t ++ sep ++ joinWith sep rest

/-- One line's terminator stripping: a newline-terminated line loses one
trailing carriage return (the \r of an \r\n ending). -/
def stripCR (l : Str) : Str :=
  if l.getLast? = some '\r' then l.dropLast else l

/-- Rust str::lines(): split on newline; a final empty piece marks a
terminating newline and is dropped; every newline-terminated line is
CR-stripped, while an unterminated final line keeps its bytes (so a final
"a\r" with no newline stays "a\r"). -/
def rustLines (s : Str) : List Str :=
  let parts := splitOnChar '\n' s
  match parts.getLast? with
  | some [] => parts.dropLast.map stripCR
  | some last => parts.dropLast.map stripCR ++ [last]
  | none => []

/-! ## AST model (src/ast.rs) -/

/-- Rust enum Type from ast.rs (Type is reserved in Lean). -/
inductive Ty where
  | Basic (name : Str)
  | Array (elem : Ty)
  | Function (params : List Ty) (return_type : Ty)
  | Optional (inner : Ty)
  | Union (members : List Ty)

/-- Rust LiteralValue.  The f64 payload of Number is kept as the source text:
no claim observes the numeric value, only which variant a token parses to. -/
inductive LiteralValue where
  | String (s : Str)
  | Number (raw : Str)
  | Integer (v : Int)
  | Boolean (b : Bool)
  | Null
deriving DecidableEq, Repr

structure Parameter where
  name : Str
  typ : Option Ty

mutual
inductive Node where
  | VariableDeclaration (name : Str) (initializer : Option Expression)
      (data_type : Option Ty) (is_mutable : Bool) (line column : Nat)
  | FunctionDeclaration (name : Str) (params : List Parameter)
      (return_type : Option Ty) (body : List Node) (line column : Nat)
  | StructDeclaration (name : Str) (fields : List StructField) (line column : Nat)
  | ClassDeclaration (name : Str) (methods : List Node)
      (properties : List StructField) (line column : Nat)
  | ImportDeclaration (path : Str) (imported_items : List Str) (line column : Nat)
  | ExpressionStatement (expression : Expression) (line column : Nat)
  | ReturnStatement (expression : Option Expression) (line column : Nat)
  | IfStatement (condition : Expression) (then_branch : List Node)
      (else_branch : Option (List Node)) (line column : Nat)
  | WhileStatement (condition : Expression) (body : List Node) (line column : Nat)
  | ForStatement (initializer : Option Node) (condition : Option Expression)
      (increment : Option Expression) (body : List Node) (line column : Nat)
  | ForInStatement (var_name : Str) (iterable : Expression) (body : List Node)
      (line column : Nat)
  | Block (statements : List Node) (line column : Nat)

inductive Expression where
  | Literal (value : LiteralValue) (line column : Nat)
  | Variable (name : Str) (line column : Nat)
  | BinaryOperation (operator : Str) (left right : Expression) (line column : Nat)
  | UnaryOperation (operator : Str) (operand : Expression) (line column : Nat)
  | Call (callee : Expression) (arguments : List Expression) (line column : Nat)
  | PropertyAccess (object : Expression) (property : Str) (line column : Nat)
  | ArrayAccess (array index : Expression) (line column : Nat)
  | Assignment (target value : Expression) (line column : Nat)
  | ArrayLiteral (elements : List Expression) (line column : Nat)
  | ObjectLiteral (properties : List ObjectProperty) (line column : Nat)
  | Lambda (params : List Parameter) (body : List Node) (return_type : Option Ty)
      (line column : Nat)

inductive StructField where
  | mk (name : Str) (typ : Option Ty) (initializer : Option Expression)

inductive ObjectProperty where
  | mk (key : Str) (value : Expression)
end

structure Ast where
  nodes : List Node

mutual
/-- impl ToString for Type. -/
def tyToString : Ty → Str
  | .Basic name => name
  | .Array elem => tyToString elem ++ "[]".data
  | .Function params return_type =>
      "fn(".data ++ joinWith ", ".data (tyListStrings params)
        ++ ") -> ".data ++ tyToString return_type
  | .Optional inner => tyToString inner ++ "?".data
  | .Union members => joinWith " | ".data (tyListStrings members)

/-- params.iter().map(|p| p.to_string()).collect(). -/
def tyListStrings : List Ty → List Str
  | [] => []
  | t :: ts => tyToString t :: tyListStrings ts
end

/-! ## Parser (src/parser.rs) -/

structure ParseError where
  message : Str
  line : Nat
  column : Nat
deriving DecidableEq, Repr

/-- i64::from_str: optional sign, non-empty decimal digits, i64 range. -/
def parseI64 (text : Str) : Option Int :=
  let (isNeg, digits) :=
    match text with
    | '+' :: r => (false, r)
    | '-' :: r => (true, r)
    | r => (false, r)
  if digits = [] || !digits.all Char.isDigit then none
  else
    let v : Nat := digits.foldl (fun a c => a * 10 + (c.toNat - '0'.toNat)) 0
    let i : Int := if isNeg then -(v : Int) else (v : Int)
    if -(2 ^ 63) ≤ i && i < 2 ^ 63 then some i else none

def allDigits1 (s : Str) : Bool := !s.isEmpty && s.all Char.isDigit

/-- exponent part of an f64 literal: empty, or (e|E)[+-]digits. -/
def expTail (s : Str) : Bool :=
  match s with
  | [] => true
  | c :: r =>
    if c = 'e' || c = 'E' then
      match r with
      | '+' :: x => allDigits1 x
      | '-' :: x => allDigits1 x
      | x => allDigits1 x
    else false

/-- f64::from_str acceptance: [+-]?(inf|infinity|nan|digits[.digits?][exp]|.digits[exp]),
case-insensitive for the named values. -/
def isF64Lit (text : Str) : Bool :=
  let t := match text with
    | '+' :: r => r
    | '-' :: r => r
    | r => r
  let lower := t.map Char.toLower
  if lower = "inf".data || lower = "infinity".data || lower = "nan".data then true
  else
    let (intPart, rest) := t.span Char.isDigit
    match rest with
    | '.' :: r2 =>
      let (fracPart, rest2) := r2.span Char.isDigit
      (!intPart.isEmpty || !fracPart.isEmpty) && expTail rest2
    | _ => !intPart.isEmpty && expTail rest

/-- Total rendering of parse_literal.  For a one-character quoted token (a
lone double or single quote) the Rust slice text[1..len-1] has start 1 above
end 0 and PANICS; this total version returns the empty string there and is
used only on panic-free paths, while parse_literalP below models the panic
itself, and the panic-aware pipeline (parse_expressionP through parseP) is
what the panic-sensitive claims are stated against. -/
def parse_literal (text : Str) : Option LiteralValue :=
  if (startsWithStr "\"".data text && text.getLast? = some '"')
      || (startsWithStr "\x27".data text && text.getLast? = some '\x27') then
    some (.String (sliceStr text 1 (text.length - 1)))
  else if text = "true".data then some (.Boolean true)
  else if text = "false".data then some (.Boolean false)
  else if text = "null".data then some .Null
  else
    match parseI64 text with
    | some v => some (.Integer v)
    | none => if isF64Lit text then some (.Number text) else none

/-- find_matching_paren: depth-counting scan from open_idx (depth is i32). -/
def fmpGo : Str → Nat → Int → Option Nat
  | [], _, _ => none
  | c :: rest, i, depth =>
    if c = '(' then fmpGo rest (i + 1) (depth + 1)
    else if c = ')' then
      let d := depth - 1
      if d = 0 then some i else fmpGo rest (i + 1) d
    else fmpGo rest (i + 1) depth

def find_matching_paren (text : Str) (open_idx : Nat) : Option Nat :=
  fmpGo (text.drop open_idx) open_idx 0

def is_valid_identifier (text : Str) : Bool :=
  match text with
  | [] => false
  | c :: rest => (c.isAlpha || c = '_') && rest.all isWordChar

/-- parse_expression.  The Rust recursion strictly decreases the length of the
slice it is applied to; the fuel parameter makes that explicit (callers pass
length + 1, so the fuel-exhausted branch is unreachable), keeping the
definition structurally recursive and kernel-computable. -/
def parse_expression (fuel : Nat) (expr_str : Str) (line_num column_offset : Nat) :
    Except ParseError Expression :=
  match fuel with
  | 0 => .error ⟨"Exhausted expression fuel".data, line_num, column_offset⟩
  | fuel + 1 =>
    let trimmed := trimStr expr_str
    if trimmed = [] then
      .error ⟨"Empty expression".data, line_num, column_offset⟩
    else
      match parse_literal trimmed with
      | some value => .ok (.Literal value line_num column_offset)
      | none =>
        let dotResult : Option Expression :=
          match charIdx (fun c => c = '.') trimmed with
          | some dot_idx =>
            let object_str := trimStr (trimmed.take dot_idx)
            let property := trimStr (trimmed.drop (dot_idx + 1))
            if !property.contains ' ' && !property.contains '.'
                && !property.contains '(' then
              match parse_expression fuel object_str line_num column_offset with
              | .ok object =>
                  some (.PropertyAccess object property line_num
                          (column_offset + dot_idx + 1))
              | .error _ => none
            else none
          | none => none
        match dotResult with
        | some e => .ok e
        | none =>
          match charIdx (fun c => c = '(') trimmed with
          | some paren_idx =>
            let callee_str := trimStr (trimmed.take paren_idx)
            match find_matching_paren trimmed paren_idx with
            | none =>
                .error ⟨"Unmatched parenthesis in function call".data,
                        line_num, column_offset + paren_idx⟩
            | some end_paren_idx =>
              let args_str := sliceStr trimmed (paren_idx + 1) end_paren_idx
              match parse_expression fuel callee_str line_num column_offset with
              | .error e => .error e
              | .ok callee =>
                let arguments := (splitOnChar ',' args_str).filterMap
                  (fun arg_str =>
                    let arg_offset := column_offset + paren_idx + 1 +
                      ((substrIdx args_str arg_str).getD 0)
                    (parse_expression fuel arg_str line_num arg_offset).toOption)
                .ok (.Call callee arguments line_num column_offset)
          | none =>
            if is_valid_identifier trimmed then
              .ok (.Variable trimmed line_num column_offset)
            else
              .error ⟨"Failed to parse expression: ".data ++ trimmed,
                      line_num, column_offset⟩

/-- parse_variable_declaration: a whitespace-token scan over the line,
mirroring the iterator chain of parts.next() in the source (each ? on an
exhausted iterator aborts the production). -/
def parse_variable_declaration (line : Str) (line_num : Nat) : Option Node :=
  match splitWs line with
  | [] => none
  | keyword :: afterKw =>
    if keyword ≠ "var".data ∧ keyword ≠ "let".data ∧ keyword ≠ "const".data then
      none
    else
      match afterKw with
      | [] => none
      | nameTok :: afterName =>
        let name := trimEndMatches ':' nameTok
        let mkVar : Option Ty → Str → List Str → Option Node :=
          fun data_type current rest =>
            let initializer :=
              if current = "=".data then
                let value_str := joinSpace rest
                let value_str := trimEndMatches ';' value_str
                (parse_expression (value_str.length + 1) value_str line_num
                  (((charIdx (fun c => c = '=') line).getD 0) + 1)).toOption
              else none
            some (.VariableDeclaration name initializer data_type
                    (keyword ≠ "const".data) line_num 0)
        match afterName with
        | [] => none
        | current :: afterCur =>
          if current = ":".data then
            match afterCur with
            | [] => none
            | type_name :: afterTy =>
              match afterTy with
              | [] => none
              | current2 :: afterCur2 =>
                  mkVar (some (.Basic type_name)) current2 afterCur2
          else mkVar none current afterCur

/-- Longest leading [a-zA-Z_][a-zA-Z0-9_]* run; none if the first char is not
an identifier start (the regex identifier class). -/
def identSpan (s : Str) : Option (Str × Str) :=
  match s with
  | [] => none
  | c :: rest =>
    if c.isAlpha || c = '_' then
      some (c :: rest.takeWhile isWordChar, rest.dropWhile isWordChar)
    else none

/-- Tail of the fn regex after the closing paren of the parameter list:
(?:\s*:\s*ident)?\s*openbrace, trying the optional group first as the regex
engine does; returns the captured return type on success. -/
def fnTail (s : Str) : Option (Option Str) :=
  let withGroup : Option (Option Str) :=
    match s.dropWhile Char.isWhitespace with
    | ':' :: r2 =>
      match identSpan (r2.dropWhile Char.isWhitespace) with
      | some (rt, r4) =>
        match r4.dropWhile Char.isWhitespace with
        | '\x7b' :: _ => some (some rt)
        | _ => none
      | none => none
    | _ => none
  match withGroup with
  | some res => some res
  | none =>
    match s.dropWhile Char.isWhitespace with
    | '\x7b' :: _ => some none
    | _ => none

/-- Lazy (.*?) capture for the parameter list: at each closing paren try the
regex tail, extending the capture over the paren on failure (regex
backtracking order for a lazy group). -/
def fnParamsGo (acc : Str) : Str → Option (Str × Option Str)
  | [] => none
  | c :: rest =>
    if c = ')' then
      match fnTail rest with
      | some rt => some (acc.reverse, rt)
      | none => fnParamsGo (c :: acc) rest
    else fnParamsGo (c :: acc) rest

/-- Try to match the fn-declaration regex at the start of s:
fn\s+ident\s*\( then the lazy parameter capture and tail. -/
def fnMatchAt (s : Str) : Option (Str × Str × Option Str) :=
  if startsWithStr "fn".data s then
    let rest := s.drop 2
    let (ws, r1) := rest.span Char.isWhitespace
    if ws = [] then none
    else
      match identSpan r1 with
      | some (name, r2) =>
        match r2.dropWhile Char.isWhitespace with
        | '(' :: r4 =>
          match fnParamsGo [] r4 with
          | some (params, rt) => some (name, params, rt)
          | none => none
        | _ => none
      | none => none
  else none

/-- Leftmost search for the fn-declaration regex (regex::Regex::captures). -/
def fnRegexCaptures : Str → Option (Str × Str × Option Str)
  | [] => none
  | c :: rest =>
    match fnMatchAt (c :: rest) with
    | some r => some r
    | none => fnRegexCaptures rest

def parse_parameters (params_str : Str) : List Parameter :=
  (splitOnChar ',' params_str).filterMap (fun param =>
    let param := trimStr param
    if param = [] then none
    else
      match splitOnChar ':' param with
      | [] => none
      | p0 :: restParts =>
        let name := trimStr p0
        let typ := match restParts with
          | [] => none
          | p1 :: _ => some (Ty.Basic (trimStr p1))
        some ⟨name, typ⟩)

/-- parse_function_declaration (all_lines is accepted and unused, as in the
source). -/
def parse_function_declaration (line : Str) (line_num : Nat)
    (_all_lines : List Str) : Option Node :=
  if !startsWithStr "fn ".data (trimStr line) then none
  else
    match fnRegexCaptures line with
    | some (name, params_str, return_type) =>
      match substrIdx line "fn".data with
      | some i =>
        some (.FunctionDeclaration name (parse_parameters params_str)
                (return_type.map (fun rt => Ty.Basic rt)) [] line_num (i + 1))
      | none => none
    | none => none

/-- Match the struct-declaration regex struct\s+ident\s*openbrace at the
start of s. -/
def structMatchAt (s : Str) : Option Str :=
  if startsWithStr "struct".data s then
    let rest := s.drop 6
    let (ws, r1) := rest.span Char.isWhitespace
    if ws = [] then none
    else
      match identSpan r1 with
      | some (name, r2) =>
        match r2.dropWhile Char.isWhitespace with
        | '\x7b' :: _ => some name
        | _ => none
      | none => none
  else none

def structCaptures : Str → Option Str
  | [] => none
  | c :: rest =>
    match structMatchAt (c :: rest) with
    | some r => some r
    | none => structCaptures rest

def parse_struct_declaration (line : Str) (line_num : Nat)
    (_all_lines : List Str) : Option Node :=
  if !startsWithStr "struct ".data (trimStr line) then none
  else
    match structCaptures line with
    | some name =>
      match substrIdx line "struct".data with
      | some i => some (.StructDeclaration name [] line_num (i + 1))
      | none => none
    | none => none

/-- Quoted-path part of the import regex: a double quote, then the lazy (.+?)
capture (shortest non-empty run up to a closing double quote). -/
def importPathAt (s : Str) : Option Str :=
  match s with
  | '"' :: r =>
    (match charIdxFrom (fun c => c = '"') (r.drop 1) 1 with
     | some j => some (r.take j)
     | none => none)
  | _ => none

/-- The optional braced-items group of the import regex followed by the quoted
path; lazy item capture with backtracking over later closing braces. -/
def importGroupGo (acc : Str) : Str → Option (Str × Str)
  | [] => none
  | c :: rest =>
    if c = '\x7d' then
      (match
        (let r1 := rest.dropWhile Char.isWhitespace
         if r1.length < rest.length ∧ startsWithStr "from".data r1 then
           let r2 := (r1.drop 4)
           let r3 := r2.dropWhile Char.isWhitespace
           if r3.length < r2.length then importPathAt r3
           else none
         else none) with
       | some path => some (acc.reverse, path)
       | none => importGroupGo (c :: acc) rest)
    else importGroupGo (c :: acc) rest

/-- Match the import regex at the start of s:
import\s+(group from)?"path", trying the optional group first. -/
def importMatchAt (s : Str) : Option (Option Str × Str) :=
  if startsWithStr "import".data s then
    let rest := s.drop 6
    let (ws, r1) := rest.span Char.isWhitespace
    if ws = [] then none
    else
      let withGroup : Option (Option Str × Str) :=
        match r1 with
        | '\x7b' :: r2 =>
          (match importGroupGo [] r2 with
           | some (items, path) => some (some items, path)
           | none => none)
        | _ => none
      match withGroup with
      | some res => some res
      | none =>
        match importPathAt r1 with
        | some path => some (none, path)
        | none => none
  else none

def importCaptures : Str → Option (Option Str × Str)
  | [] => none
  | c :: rest =>
    match importMatchAt (c :: rest) with
    | some r => some r
    | none => importCaptures rest

def parse_import_declaration (line : Str) (line_num : Nat) : Option Node :=
  if !startsWithStr "import ".data (trimStr line) then none
  else
    match importCaptures line with
    | some (items, path) =>
      let imported_items :=
        match items with
        | some items_str => (splitOnChar ',' items_str).map trimStr
        | none => []
      match substrIdx line "import".data with
      | some i => some (.ImportDeclaration path imported_items line_num (i + 1))
      | none => none
    | none => none

/-- The contribution of one physical line to the parse: the nodes pushed and
the errors pushed (each line contributes independently in the source loop). -/
def lineOutput (lines : List Str) (p : Nat × Str) : List Node × List ParseError :=
  let line_idx := p.1
  let line := p.2
  let line_num := line_idx + 1
  let trimmed := trimStr line
  if trimmed = [] ∨ startsWithStr "//".data trimmed then ([], [])
  else
    match parse_variable_declaration trimmed line_num with
    | some n => ([n], [])
    | none =>
    match parse_function_declaration trimmed line_num (lines.drop line_idx) with
    | some n => ([n], [])
    | none =>
    match parse_struct_declaration trimmed line_num (lines.drop line_idx) with
    | some n => ([n], [])
    | none =>
    match parse_import_declaration trimmed line_num with
    | some n => ([n], [])
    | none =>
      if trimmed.head? = some '\x7d' ∨ trimmed.head? = some ')'
          ∨ trimmed.head? = some ']' then ([], [])
      else
        match parse_expression (trimmed.length + 1) trimmed line_num 0 with
        | .ok expr => ([.ExpressionStatement expr line_num 0], [])
        | .error err =>
          if trimmed.all (fun c => c.isWhitespace || c = '\x7b' || c = '\x7d') then
            ([], [])
          else ([], [err])

/-- parse: one pass over the physical lines, collecting nodes and errors in
order; Err(errors) whenever any error occurred. -/
def parse (source : Str) : Except (List ParseError) Ast :=
  let lines := rustLines source
  let res := lines.enum.foldl
    (fun acc p =>
      let out := lineOutput lines p
      (acc.1 ++ out.1, acc.2 ++ out.2))
    ([], [])
  if res.2 = [] then .ok ⟨res.1⟩ else .error res.2

/-! ## Panic-aware parser

The only reachable panic in the parser is the parse_literal slice
text[1..len-1] on a one-character quoted token.  The functions below repeat
the parser with that panic made explicit: an outer none means the Rust code
panics there, aborting the whole parse (a panicking line stops the scan and
no result is returned).  The total functions above describe the same code on
every input whose evaluation returns. -/

/-- parse_literal with the panic explicit: none is the panic on a
one-character quoted token; some r is a normal return. -/
def parse_literalP (text : Str) : Option (Option LiteralValue) :=
  if (startsWithStr "\"".data text && text.getLast? = some '"')
      || (startsWithStr "\x27".data text && text.getLast? = some '\x27') then
    if text.length = 1 then none
    else some (some (.String (sliceStr text 1 (text.length - 1))))
  else if text = "true".data then some (some (.Boolean true))
  else if text = "false".data then some (some (.Boolean false))
  else if text = "null".data then some (some .Null)
  else
    match parseI64 text with
    | some v => some (some (.Integer v))
    | none => if isF64Lit text then some (some (.Number text)) else some none

/-- The argument loop of the Call production with panic propagation: each
piece is parsed left to right, a panic aborts, Ok results are kept in order
and Err results are skipped. -/
def argListP (f : Str → Option (Except ParseError Expression)) :
    List Str → Option (List Expression)
  | [] => some []
  | a :: rest =>
    match f a with
    | none => none
    | some r =>
      match argListP f rest with
      | none => none
      | some es =>
        some (match r with
          | .ok e => e :: es
          | .error _ => es)

/-- parse_expression with the parse_literal panic propagated: none means the
evaluation panics; some r is the Result the Rust function returns. -/
def parse_expressionP (fuel : Nat) (expr_str : Str) (line_num column_offset : Nat) :
    Option (Except ParseError Expression) :=
  match fuel with
  | 0 => some (.error ⟨"Exhausted expression fuel".data, line_num, column_offset⟩)
  | fuel + 1 =>
    let trimmed := trimStr expr_str
    if trimmed = [] then
      some (.error ⟨"Empty expression".data, line_num, column_offset⟩)
    else
      match parse_literalP trimmed with
      | none => none
      | some (some value) => some (.ok (.Literal value line_num column_offset))
      | some none =>
        let dotResult : Option (Option Expression) :=
          match charIdx (fun c => c = '.') trimmed with
          | some dot_idx =>
            let object_str := trimStr (trimmed.take dot_idx)
            let property := trimStr (trimmed.drop (dot_idx + 1))
            if !property.contains ' ' && !property.contains '.'
                && !property.contains '(' then
              match parse_expressionP fuel object_str line_num column_offset with
              | none => none
              | some (.ok object) =>
                  some (some (.PropertyAccess object property line_num
                          (column_offset + dot_idx + 1)))
              | some (.error _) => some none
            else some none
          | none => some none
        match dotResult with
        | none => none
        | some (some e) => some (.ok e)
        | some none =>
          match charIdx (fun c => c = '(') trimmed with
          | some paren_idx =>
            let callee_str := trimStr (trimmed.take paren_idx)
            match find_matching_paren trimmed paren_idx with
            | none =>
                some (.error ⟨"Unmatched parenthesis in function call".data,
                        line_num, column_offset + paren_idx⟩)
            | some end_paren_idx =>
              let args_str := sliceStr trimmed (paren_idx + 1) end_paren_idx
              match parse_expressionP fuel callee_str line_num column_offset with
              | none => none
              | some (.error e) => some (.error e)
              | some (.ok callee) =>
                match argListP
                    (fun arg_str =>
                      let arg_offset := column_offset + paren_idx + 1 +
                        ((substrIdx args_str arg_str).getD 0)
                      parse_expressionP fuel arg_str line_num arg_offset)
                    (splitOnChar ',' args_str) with
                | none => none
                | some arguments =>
                  some (.ok (.Call callee arguments line_num column_offset))
          | none =>
            if is_valid_identifier trimmed then
              some (.ok (.Variable trimmed line_num column_offset))
            else
              some (.error ⟨"Failed to parse expression: ".data ++ trimmed,
                      line_num, column_offset⟩)

/-- parse_variable_declaration with the initializer's expression panic
propagated (an initializer panic aborts the whole parse in Rust: the
Ok/Err match around parse_expression does not catch an unwind). -/
def parse_variable_declarationP (line : Str) (line_num : Nat) :
    Option (Option Node) :=
  match splitWs line with
  | [] => some none
  | keyword :: afterKw =>
    if keyword ≠ "var".data ∧ keyword ≠ "let".data ∧ keyword ≠ "const".data then
      some none
    else
      match afterKw with
      | [] => some none
      | nameTok :: afterName =>
        let name := trimEndMatches ':' nameTok
        let mkVarP : Option Ty → Str → List Str → Option (Option Node) :=
          fun data_type current rest =>
            if current = "=".data then
              let value_str := joinSpace rest
              let value_str := trimEndMatches ';' value_str
              match parse_expressionP (value_str.length + 1) value_str line_num
                  (((charIdx (fun c => c = '=') line).getD 0) + 1) with
              | none => none
              | some r =>
                some (some (.VariableDeclaration name r.toOption data_type
                        (keyword ≠ "const".data) line_num 0))
            else
              some (some (.VariableDeclaration name none data_type
                      (keyword ≠ "const".data) line_num 0))
        match afterName with
        | [] => some none
        | current :: afterCur =>
          if current = ":".data then
            match afterCur with
            | [] => some none
            | type_name :: afterTy =>
              match afterTy with
              | [] => some none
              | current2 :: afterCur2 =>
                  mkVarP (some (.Basic type_name)) current2 afterCur2
          else mkVarP none current afterCur

/-- One line's contribution with panics propagated (only the variable
declaration's initializer and the expression-statement fallback can reach
parse_literal; the regex-based productions cannot panic). -/
def lineOutputP (lines : List Str) (p : Nat × Str) :
    Option (List Node × List ParseError) :=
  let line_idx := p.1
  let line := p.2
  let line_num := line_idx + 1
  let trimmed := trimStr line
  if trimmed = [] ∨ startsWithStr "//".data trimmed then some ([], [])
  else
    match parse_variable_declarationP trimmed line_num with
    | none => none
    | some (some n) => some ([n], [])
    | some none =>
    match parse_function_declaration trimmed line_num (lines.drop line_idx) with
    | some n => some ([n], [])
    | none =>
    match parse_struct_declaration trimmed line_num (lines.drop line_idx) with
    | some n => some ([n], [])
    | none =>
    match parse_import_declaration trimmed line_num with
    | some n => some ([n], [])
    | none =>
      if trimmed.head? = some '\x7d' ∨ trimmed.head? = some ')'
          ∨ trimmed.head? = some ']' then some ([], [])
      else
        match parse_expressionP (trimmed.length + 1) trimmed line_num 0 with
        | none => none
        | some (.ok expr) => some ([.ExpressionStatement expr line_num 0], [])
        | some (.error err) =>
          if trimmed.all (fun c => c.isWhitespace || c = '\x7b' || c = '\x7d') then
            some ([], [])
          else some ([], [err])

/-- The parse loop with panics: the first panicking line aborts the scan. -/
def parsePGo (lines : List Str) :
    List (Nat × Str) → List Node × List ParseError →
      Option (List Node × List ParseError)
  | [], acc => some acc
  | p :: ps, acc =>
    match lineOutputP lines p with
    | none => none
    | some out => parsePGo lines ps (acc.1 ++ out.1, acc.2 ++ out.2)

/-- parse with the panic explicit: none means the Rust parse panics (no error
list is ever returned); some r is the Result it returns. -/
def parseP (source : Str) : Option (Except (List ParseError) Ast) :=
  let lines := rustLines source
  match parsePGo lines lines.enum ([], []) with
  | none => none
  | some res => some (if res.2 = [] then .ok ⟨res.1⟩ else .error res.2)

/-- The per-line output under the no-panic reading (the default is only used
where lineOutputP panics, and no such line contributes to a returned parse). -/
def lineOutD (lines : List Str) (p : Nat × Str) : List Node × List ParseError :=
  (lineOutputP lines p).getD ([], [])

/-! ## HashMap model: association list with insert-replace semantics. -/

def lookupA {α : Type} (k : Str) : List (Str × α) → Option α
  | [] => none
  | (k', v) :: rest => if k' = k then some v else lookupA k rest

def insertA {α : Type} (k : Str) (v : α) : List (Str × α) → List (Str × α)
  | [] => [(k, v)]
  | (k', v') :: rest =>
    if k' = k then (k, v) :: rest else (k', v') :: insertA k v rest

/-! ## Type checker (src/typechecker.rs) -/

structure TypeErrorInfo where
  message : Str
  line : Nat
  column : Nat
  length : Nat
deriving DecidableEq, Repr

/-- BurnTypeChecker state: per-file variable tables, workspace root, and the
process-wide current-file slot. -/
structure BurnTypeChecker where
  /-- the Rust field `variables` (a reserved word in Lean) -/
  vars : List (Str × List (Str × Str))
  workspace_root : Option Str
  current_file : Option Str
deriving DecidableEq, Repr

def BurnTypeChecker.new : BurnTypeChecker := ⟨[], none, none⟩

/-- The body of the declaration loop in check_types: one node's effect on the
variable_types table. -/
def checkTypesStep (vt : List (Str × Str)) (node : Node) : List (Str × Str) :=
  match node with
  | .VariableDeclaration name _ data_type _ _ _ =>
    let type_str := match data_type with
      | some t => tyToString t
      | none => "any".data
    insertA name type_str vt
  | .FunctionDeclaration name params return_type _ _ _ =>
    let param_types := params.map (fun p =>
      match p.typ with
      | some t => tyToString t
      | none => "any".data)
    let return_type_str := match return_type with
      | some t => tyToString t
      | none => "void".data
    let fn_type := "fn(".data ++ joinWith ", ".data param_types
      ++ ")->".data ++ return_type_str
    insertA name fn_type vt
  | .StructDeclaration name _ _ _ =>
    insertA name ("struct ".data ++ name) vt
  | _ => vt

/-- check_types: sets the current file, builds the per-file variable table
from top-level declarations, never pushes an error, and stores the fresh
table keyed by the file path. -/
def check_types (tc : BurnTypeChecker) (ast : Ast) (file_path : Str) :
    BurnTypeChecker × Except (List TypeErrorInfo) Unit :=
  let tc := { tc with current_file := some file_path }
  let variable_types := ast.nodes.foldl checkTypesStep []
  let errors : List TypeErrorInfo := []
  if errors = [] then
    ({ tc with vars := insertA file_path variable_types tc.vars },
     .ok ())
  else (tc, .error errors)

/-- The built-in global-name registry consulted when the current file has no
stored table (the tail of get_variable_type). -/
def builtinVarType (variable_name : Str) : Option Str :=
  if variable_name = "String".data then some "type".data
  else if variable_name = "Number".data then some "type".data
  else if variable_name = "Boolean".data then some "type".data
  else if variable_name = "Array".data then some "type".data
  else if variable_name = "Object".data then some "type".data
  else if variable_name = "Date".data then some "class".data
  else if variable_name = "Http".data then some "namespace".data
  else if variable_name = "Time".data then some "namespace".data
  else none

/-- get_variable_type: when the current file has a stored table, its answer is
returned directly (even when None); otherwise fall back to the built-ins. -/
def get_variable_type (tc : BurnTypeChecker) (variable_name : Str) : Option Str :=
  match tc.current_file with
  | some file =>
    (match lookupA file tc.vars with
     | some file_vars => lookupA variable_name file_vars
     | none => builtinVarType variable_name)
  | none => builtinVarType variable_name

def stringMemberType (property_name : Str) : Option Str :=
  if property_name = "length".data then some "number".data
  else if property_name = "toUpperCase".data then some "fn()->String".data
  else if property_name = "toLowerCase".data then some "fn()->String".data
  else if property_name = "substring".data then some "fn(number, number)->String".data
  else none

def arrayMemberType (property_name : Str) : Option Str :=
  if property_name = "length".data then some "number".data
  else if property_name = "push".data then some "fn(any)->number".data
  else if property_name = "pop".data then some "fn()->any".data
  else if property_name = "join".data then some "fn(String)->String".data
  else none

def dateMemberType (property_name : Str) : Option Str :=
  if property_name = "getTime".data then some "fn()->number".data
  else if property_name = "getDay".data then some "fn()->number".data
  else if property_name = "getMonth".data then some "fn()->number".data
  else if property_name = "getFullYear".data then some "fn()->number".data
  else none

def httpMemberType (property_name : Str) : Option Str :=
  if property_name = "get".data then some "fn(String)->HttpResponse".data
  else if property_name = "post".data then some "fn(String, Object)->HttpResponse".data
  else none

def timeMemberType (property_name : Str) : Option Str :=
  if property_name = "now".data then some "fn()->number".data
  else if property_name = "sleep".data then some "fn(number)->void".data
  else none

/-- get_property_type: fixed dispatch tables for the built-in owners; an owner
beginning with "struct " answers "any" only under a set current file. -/
def get_property_type (tc : BurnTypeChecker) (object_type property_name : Str) :
    Option Str :=
  if object_type = "String".data then stringMemberType property_name
  else if object_type = "Array".data then arrayMemberType property_name
  else if object_type = "Date".data then dateMemberType property_name
  else if object_type = "Http".data then httpMemberType property_name
  else if object_type = "Time".data then timeMemberType property_name
  else if startsWithStr "struct ".data object_type then
    (match tc.current_file with
     | some _ => some "any".data
     | none => none)
  else none

/-! ## Positions (src/utils.rs) -/

/-- position_to_offset: guard on the line index, then the source loop summing
each preceding line's length plus one, then the clamped column. -/
def position_to_offset (text : Str) (posLine posChar : Nat) : Except Unit Nat :=
  let lines := rustLines text
  if posLine ≥ lines.length then .error ()
  else
    let offset := (lines.take posLine).foldl (fun acc l => acc + (l.length + 1)) 0
    let line := lines.getD posLine []
    let column := min posChar line.length
    .ok (offset + column)

/-- The char_indices loop of offset_to_position. -/
def otpGo : Str → Nat → Nat → Nat → Nat → Nat × Nat
  | [], _, line, char_count, _ => (line, char_count)
  | c :: rest, i, line, char_count, offset =>
    if i ≥ offset then (line, char_count)
    else if c = '\n' then otpGo rest (i + 1) (line + 1) 0 offset
    else otpGo rest (i + 1) line (char_count + 1) offset

def offset_to_position (text : Str) (offset : Nat) : Except Unit (Nat × Nat) :=
  if offset > text.length then .error ()
  else .ok (otpGo text 0 0 0 offset)

def find_word_at_offset (text : Str) (offset : Nat) : Option (Nat × Nat) :=
  if offset ≥ text.length then none
  else
    let text_before := text.take offset
    let start := match rcharIdx (fun c => !isWordChar c) text_before with
      | some pos => pos + 1
      | none => 0
    let text_after := text.drop offset
    let end_offset := (charIdx (fun c => !isWordChar c) text_after).getD
      text_after.length
    let e := offset + end_offset
    if e > start then some (start, e) else none

/-! ## Analyzer (src/analyzer.rs) -/

structure Document where
  uri : Str
  content : Str
  ast : Option Ast

inductive ErrorType where
  | ParseError
  | TypeError
  | SemanticError
deriving DecidableEq, Repr

structure AnalysisError where
  message : Str
  error_type : ErrorType
  line : Nat
  column : Nat
  length : Nat
deriving DecidableEq, Repr

structure DefinitionLocation where
  uri : Str
  line : Nat
  character : Nat
deriving DecidableEq, Repr

structure BurnAnalyzer where
  documents : List (Str × Document)
  type_checker : BurnTypeChecker
  workspace_root : Option Str

def BurnAnalyzer.new : BurnAnalyzer := ⟨[], BurnTypeChecker.new, none⟩

/-- open_document: ast is Some exactly on parse success; the document replaces
any prior entry for the uri. -/
def open_document (st : BurnAnalyzer) (uri : Str) (content : Str) : BurnAnalyzer :=
  let ast := match parse content with
    | .ok a => some a
    | .error _ => none
  { st with documents := insertA uri ⟨uri, content, ast⟩ st.documents }

def close_document (st : BurnAnalyzer) (uri : Str) : BurnAnalyzer :=
  { st with documents := st.documents.filter (fun p => p.1 ≠ uri) }

/-- analyze_document: with an AST, mark the file current and run check_types;
with no AST, re-parse the stored text to regenerate the parse errors (length
fixed at 1).  Unknown uri yields no errors. -/
def analyze_document (st : BurnAnalyzer) (uri : Str) :
    BurnAnalyzer × List AnalysisError :=
  match lookupA uri st.documents with
  | none => (st, [])
  | some document =>
    match document.ast with
    | some ast =>
      let tc := { st.type_checker with current_file := some uri }
      let (tc, result) := check_types tc ast uri
      let errors := match result with
        | .ok _ => []
        | .error type_errors => type_errors.map (fun e =>
            AnalysisError.mk e.message .TypeError e.line e.column e.length)
      ({ st with type_checker := tc }, errors)
    | none =>
      match parse document.content with
      | .ok _ => (st, [])
      | .error parse_errors =>
        (st, parse_errors.map (fun e =>
          AnalysisError.mk e.message .ParseError e.line e.column 1))

/-- The declaration-name match performed on each node during the
find_definition scan. -/
def nodeDefMatch (word doc_uri : Str) : Node → Option DefinitionLocation
  | .FunctionDeclaration name _ _ _ line column =>
    if name = word then some ⟨doc_uri, line, column⟩ else none
  | .VariableDeclaration name _ _ _ line column =>
    if name = word then some ⟨doc_uri, line, column⟩ else none
  | .StructDeclaration name _ line column =>
    if name = word then some ⟨doc_uri, line, column⟩ else none
  | .ClassDeclaration name _ _ line column =>
    if name = word then some ⟨doc_uri, line, column⟩ else none
  | _ => none

/-- find_definition: resolve the word at the position in uri, then scan every
open document's top-level nodes in store order, returning the first
declaration whose name equals the word. -/
def find_definition (st : BurnAnalyzer) (uri : Str) (line character : Nat) :
    Option DefinitionLocation :=
  match lookupA uri st.documents with
  | none => none
  | some document =>
    match position_to_offset document.content line character with
    | .error _ => none
    | .ok offset =>
      match find_word_at_offset document.content offset with
      | none => none
      | some (start, e) =>
        let word := sliceStr document.content start e
        st.documents.findSome? (fun p =>
          match p.2.ast with
          | some ast => ast.nodes.findSome? (nodeDefMatch word p.1)
          | none => none)

/-! ## Hover (src/hover.rs) -/

/-- Markdown hover payload: the rendered markup string and the optional
token-span range as (line, character) pairs. -/
structure Hover where
  value : Str
  range : Option ((Nat × Nat) × (Nat × Nat))
deriving DecidableEq, Repr

def check_for_dot_access (text : Str) (offset : Nat) : Option (Str × Str) :=
  let text_before := text.take offset
  let text_after := text.drop offset
  match rcharIdx (fun c => c = '.') text_before with
  | none => none
  | some property_start =>
    let object_end := property_start
    let object_start := match rcharIdx (fun c => !isWordChar c)
        (text_before.take object_end) with
      | some pos => pos + 1
      | none => 0
    let object_name := trimStr (sliceStr text_before object_start object_end)
    let after_dot := property_start + 1
    let property_end := after_dot + ((charIdx (fun c => !isWordChar c)
      text_after).getD text_after.length)
    let property_name := trimStr (sliceStr text after_dot property_end)
    if object_name ≠ [] ∧ property_name ≠ [] then
      some (object_name, property_name)
    else none

/-- get_word_range_at_position (hover.rs duplicates find_word_at_offset). -/
def get_word_range_at_position (text : Str) (offset : Nat) : Option (Nat × Nat) :=
  if offset ≥ text.length then none
  else
    let text_before := text.take offset
    let start := match rcharIdx (fun c => !isWordChar c) text_before with
      | some pos => pos + 1
      | none => 0
    let text_after := text.drop offset
    let end_offset := (charIdx (fun c => !isWordChar c) text_after).getD
      text_after.length
    let e := offset + end_offset
    if e > start then some (start, e) else none

def get_keyword_info (keyword : Str) : Option Str :=
  if keyword = "fn".data then some "Function declaration keyword".data
  else if keyword = "return".data then some "Return statement keyword".data
  else if keyword = "if".data then some "Conditional statement keyword".data
  else if keyword = "else".data then some "Conditional statement keyword".data
  else if keyword = "while".data then some "Loop keyword".data
  else if keyword = "for".data then some "Loop keyword".data
  else if keyword = "in".data then some "Loop/iterator keyword".data
  else if keyword = "var".data then some "Variable declaration keyword".data
  else if keyword = "const".data then some "Constant declaration keyword".data
  else if keyword = "let".data then
    some "Block scoped variable declaration keyword".data
  else if keyword = "import".data then some "Module import keyword".data
  else if keyword = "struct".data then some "Structure definition keyword".data
  else if keyword = "type".data then some "Type alias declaration keyword".data
  else if keyword = "true".data ∨ keyword = "false".data then
    some "Boolean literal".data
  else if keyword = "null".data then some "Null literal".data
  else if keyword = "class".data then some "Class definition keyword".data
  else none

def get_builtin_info (function_name : Str) : Option Str :=
  if function_name = "print".data then
    some "```burn\nfn print(value: any) -> void\n```\n\nPrints a value to the console.".data
  else if function_name = "println".data then
    some "```burn\nfn println(value: any) -> void\n```\n\nPrints a value to the console with a newline.".data
  else if function_name = "len".data then
    some "```burn\nfn len(collection: any) -> number\n```\n\nReturns the length of an array, string, or collection.".data
  else if function_name = "typeof".data then
    some "```burn\nfn typeof(value: any) -> string\n```\n\nReturns the type of a value as a string.".data
  else if function_name = "parseInt".data then
    some "```burn\nfn parseInt(str: string) -> number\n```\n\nParses a string into an integer number.".data
  else if function_name = "parseFloat".data then
    some "```burn\nfn parseFloat(str: string) -> number\n```\n\nParses a string into a floating-point number.".data
  else none

def get_property_hover (tc : BurnTypeChecker) (object_name property_name : Str) :
    Except Unit (Option Hover) :=
  match get_variable_type tc object_name with
  | some object_type =>
    (match get_property_type tc object_type property_name with
     | some property_info =>
       .ok (some ⟨"**".data ++ property_name ++ "**: ".data ++ property_info,
                  none⟩)
     | none => .ok none)
  | none => .ok none

/-- on_hover: dot-access hover first, then the word under the cursor against
declared types, the keyword glossary and the built-in glossary. -/
def on_hover (tc : BurnTypeChecker) (document : Str) (posLine posChar : Nat) :
    Except Unit (Option Hover) :=
  match position_to_offset document posLine posChar with
  | .error e => .error e
  | .ok offset =>
    match check_for_dot_access document offset with
    | some (object_name, property_name) =>
      get_property_hover tc object_name property_name
    | none =>
      match get_word_range_at_position document offset with
      | some (s, e) =>
        let word := sliceStr document s e
        (match get_variable_type tc word with
         | some var_type =>
           (match offset_to_position document s, offset_to_position document e with
            | .ok p1, .ok p2 =>
              .ok (some ⟨"**".data ++ word ++ "**: ".data ++ var_type,
                         some (p1, p2)⟩)
            | .error er, _ => .error er
            | _, .error er => .error er)
         | none =>
           match get_keyword_info word with
           | some keyword_info =>
             (match offset_to_position document s, offset_to_position document e with
              | .ok p1, .ok p2 =>
                .ok (some ⟨"**".data ++ word ++ "**: ".data ++ keyword_info,
                           some (p1, p2)⟩)
              | .error er, _ => .error er
              | _, .error er => .error er)
           | none =>
             match get_builtin_info word with
             | some builtin_info =>
               (match offset_to_position document s, offset_to_position document e with
                | .ok p1, .ok p2 => .ok (some ⟨builtin_info, some (p1, p2)⟩)
                | .error er, _ => .error er
                | _, .error er => .error er)
             | none => .ok none)
      | none => .ok none

/-! ## Completion (src/typechecker.rs) -/

inductive CompletionItemKind where
  | KEYWORD
  | CLASS
  | FUNCTION
  | VARIABLE
  | PROPERTY
  | METHOD
deriving DecidableEq, Repr

structure CompletionItem where
  label : Str
  kind : Option CompletionItemKind
  detail : Option Str
deriving DecidableEq, Repr

def keyword_completions : List CompletionItem :=
  (["fn", "return", "if", "else", "while", "for", "in", "var", "const", "let",
    "import", "struct", "type", "true", "false", "null", "class", "break",
    "continue", "switch", "case", "default"].map
    (fun k => CompletionItem.mk k.data (some .KEYWORD) none))

def type_completions : List CompletionItem :=
  (["String", "Number", "Boolean", "Array", "Object", "Date", "Function",
    "any", "void"].map
    (fun t => CompletionItem.mk t.data (some .CLASS) none))

def builtin_function_completions : List CompletionItem :=
  [⟨"print".data, some .FUNCTION, some "fn(any)->void".data⟩,
   ⟨"println".data, some .FUNCTION, some "fn(any)->void".data⟩,
   ⟨"len".data, some .FUNCTION, some "fn(collection)->Number".data⟩,
   ⟨"typeof".data, some .FUNCTION, some "fn(any)->String".data⟩,
   ⟨"parseInt".data, some .FUNCTION, some "fn(String)->Number".data⟩,
   ⟨"parseFloat".data, some .FUNCTION, some "fn(String)->Number".data⟩]

def string_completions : List CompletionItem :=
  [⟨"length".data, some .PROPERTY, some "number".data⟩,
   ⟨"toUpperCase".data, some .METHOD, some "fn()->String".data⟩,
   ⟨"toLowerCase".data, some .METHOD, some "fn()->String".data⟩,
   ⟨"substring".data, some .METHOD, some "fn(number, number)->String".data⟩,
   ⟨"indexOf".data, some .METHOD, some "fn(String)->number".data⟩,
   ⟨"split".data, some .METHOD, some "fn(String)->Array".data⟩]

def array_completions : List CompletionItem :=
  [⟨"length".data, some .PROPERTY, some "number".data⟩,
   ⟨"push".data, some .METHOD, some "fn(any)->number".data⟩,
   ⟨"pop".data, some .METHOD, some "fn()->any".data⟩,
   ⟨"shift".data, some .METHOD, some "fn()->any".data⟩,
   ⟨"unshift".data, some .METHOD, some "fn(any)->number".data⟩,
   ⟨"join".data, some .METHOD, some "fn(String)->String".data⟩,
   ⟨"map".data, some .METHOD, some "fn(fn(any)->any)->Array".data⟩,
   ⟨"filter".data, some .METHOD, some "fn(fn(any)->Boolean)->Array".data⟩]

def date_completions : List CompletionItem :=
  [⟨"getTime".data, some .METHOD, some "fn()->number".data⟩,
   ⟨"getDay".data, some .METHOD, some "fn()->number".data⟩,
   ⟨"getMonth".data, some .METHOD, some "fn()->number".data⟩,
   ⟨"getFullYear".data, some .METHOD, some "fn()->number".data⟩,
   ⟨"getHours".data, some .METHOD, some "fn()->number".data⟩,
   ⟨"getMinutes".data, some .METHOD, some "fn()->number".data⟩,
   ⟨"getSeconds".data, some .METHOD, some "fn()->number".data⟩]

def http_completions : List CompletionItem :=
  [⟨"get".data, some .METHOD, some "fn(String)->HttpResponse".data⟩,
   ⟨"post".data, some .METHOD, some "fn(String, Object)->HttpResponse".data⟩,
   ⟨"put".data, some .METHOD, some "fn(String, Object)->HttpResponse".data⟩,
   ⟨"delete".data, some .METHOD, some "fn(String)->HttpResponse".data⟩]

def time_completions : List CompletionItem :=
  [⟨"now".data, some .METHOD, some "fn()->number".data⟩,
   ⟨"sleep".data, some .METHOD, some "fn(number)->void".data⟩]

def default_property_completions : List CompletionItem :=
  [⟨"length".data, some .PROPERTY, some "property".data⟩,
   ⟨"name".data, some .PROPERTY, some "property".data⟩,
   ⟨"toString".data, some .METHOD, some "fn()->String".data⟩,
   ⟨"valueOf".data, some .METHOD, some "fn()->any".data⟩]

/-- The non-dot completion list: keywords, type names, built-in functions,
plus every name in the current file's variable table. -/
def general_completions (tc : BurnTypeChecker) : List CompletionItem :=
  keyword_completions ++ type_completions ++ builtin_function_completions ++
  (match tc.current_file with
   | some current_file =>
     (match lookupA current_file tc.vars with
      | some file_vars => file_vars.map (fun q =>
          CompletionItem.mk q.1 (some .VARIABLE) (some q.2))
      | none => [])
   | none => [])

/-- get_completions: member completions after a dot (empty when the resolved
owner type has no table), default property list when the owner is unknown,
otherwise the general list. -/
def get_completions (tc : BurnTypeChecker) (document : Str)
    (posLine posChar : Nat) : List CompletionItem :=
  match position_to_offset document posLine posChar with
  | .ok offset =>
    let text_before := document.take offset
    (match text_before.getLast? with
     | some last_char =>
       if last_char = '.' then
         match rcharIdx (fun c => c = '.') text_before with
         | some property_start =>
           let object_end := property_start
           let object_start := match rcharIdx (fun c => !isWordChar c)
               (text_before.take object_end) with
             | some pos => pos + 1
             | none => 0
           let object_name := trimStr (sliceStr text_before object_start object_end)
           (match get_variable_type tc object_name with
            | some object_type =>
              if object_type = "String".data then string_completions
              else if object_type = "Array".data then array_completions
              else if object_type = "Date".data then date_completions
              else if object_type = "Http".data then http_completions
              else if object_type = "Time".data then time_completions
              else []
            | none => default_property_completions)
         | none => default_property_completions
       else general_completions tc
     | none => general_completions tc)
  | .error _ => general_completions tc

/-! ## Derived definitions used by the statements -/

/-- The line field any Node carries. -/
def nodeLine : Node → Nat
  | .VariableDeclaration _ _ _ _ line _ => line
  | .FunctionDeclaration _ _ _ _ line _ => line
  | .StructDeclaration _ _ line _ => line
  | .ClassDeclaration _ _ _ line _ => line
  | .ImportDeclaration _ _ line _ => line
  | .ExpressionStatement _ line _ => line
  | .ReturnStatement _ line _ => line
  | .IfStatement _ _ _ line _ => line
  | .WhileStatement _ _ line _ => line
  | .ForStatement _ _ _ _ line _ => line
  | .ForInStatement _ _ _ line _ => line
  | .Block _ line _ => line

/-- The column field any Node carries. -/
def nodeColumn : Node → Nat
  | .VariableDeclaration _ _ _ _ _ column => column
  | .FunctionDeclaration _ _ _ _ _ column => column
  | .StructDeclaration _ _ _ column => column
  | .ClassDeclaration _ _ _ _ column => column
  | .ImportDeclaration _ _ _ column => column
  | .ExpressionStatement _ _ column => column
  | .ReturnStatement _ _ column => column
  | .IfStatement _ _ _ _ column => column
  | .WhileStatement _ _ _ column => column
  | .ForStatement _ _ _ _ _ column => column
  | .ForInStatement _ _ _ _ column => column
  | .Block _ _ column => column

/-- The data_type field of a VariableDeclaration. -/
def nodeDataType : Node → Option Ty
  | .VariableDeclaration _ _ data_type _ _ _ => data_type
  | _ => none

/-- The (name, rendered type) entry a top-level node contributes to the
TypeEnvironment, per the three contributing arms of check_types. -/
def declEntry : Node → Option (Str × Str)
  | .VariableDeclaration name _ data_type _ _ _ =>
    some (name, match data_type with
      | some t => tyToString t
      | none => "any".data)
  | .FunctionDeclaration name params return_type _ _ _ =>
    some (name, "fn(".data ++ joinWith ", ".data (params.map (fun p =>
        match p.typ with
        | some t => tyToString t
        | none => "any".data)) ++ ")->".data ++
      (match return_type with
       | some t => tyToString t
       | none => "void".data))
  | .StructDeclaration name _ _ _ => some (name, "struct ".data ++ name)
  | _ => none

/-- The TypeEnvironment check_types builds for an AST. -/
def envOf (ast : Ast) : List (Str × Str) := ast.nodes.foldl checkTypesStep []

/-- The (nodes, errors) accumulation of parse. -/
def parseOut (source : Str) : List Node × List ParseError :=
  let lines := rustLines source
  lines.enum.foldl
    (fun acc p =>
      let out := lineOutput lines p
      (acc.1 ++ out.1, acc.2 ++ out.2))
    ([], [])

def parseNodes (source : Str) : List Node := (parseOut source).1

def parseErrors (source : Str) : List ParseError := (parseOut source).2

/-! ## Helper lemmas -/

theorem lookupA_insertA {α : Type} (q k : Str) (v : α) (l : List (Str × α)) :
    lookupA q (insertA k v l) = if k = q then some v else lookupA q l := by
  induction l with
  | nil => by_cases h : k = q <;> simp [insertA, lookupA, h]
  | cons p rest ih =>
    obtain ⟨k1, v1⟩ := p
    by_cases h1 : k1 = k <;> by_cases h2 : k = q <;>
      by_cases h3 : k1 = q <;> simp_all [insertA, lookupA]

theorem parse_characterization (source : Str) :
    parse source =
      (if parseErrors source = [] then .ok ⟨parseNodes source⟩
       else .error (parseErrors source)) := rfl

theorem foldl_out_append (lines : List Str) (ps : List (Nat × Str))
    (acc : List Node × List ParseError) :
    ps.foldl (fun acc p =>
        let out := lineOutput lines p
        (acc.1 ++ out.1, acc.2 ++ out.2)) acc =
      (acc.1 ++ ps.flatMap (fun p => (lineOutput lines p).1),
       acc.2 ++ ps.flatMap (fun p => (lineOutput lines p).2)) := by
  induction ps generalizing acc with
  | nil => simp
  | cons p ps ih => simp [ih, List.flatMap_cons]

theorem parseNodes_eq_bind (source : Str) :
    parseNodes source = (rustLines source).enum.flatMap
      (fun p => (lineOutput (rustLines source) p).1) := by
  unfold parseNodes parseOut
  rw [foldl_out_append]
  simp

theorem parseErrors_eq_bind (source : Str) :
    parseErrors source = (rustLines source).enum.flatMap
      (fun p => (lineOutput (rustLines source) p).2) := by
  unfold parseErrors parseOut
  rw [foldl_out_append]
  simp

theorem lineOutput_shape (lines : List Str) (p : Nat × Str) :
    lineOutput lines p = ([], []) ∨
      (∃ n, lineOutput lines p = ([n], [])) ∨
      (∃ e, lineOutput lines p = ([], [e])) := by
  obtain ⟨idx, line⟩ := p
  unfold lineOutput
  dsimp only
  repeat' split
  all_goals first
    | exact Or.inl rfl
    | exact Or.inr (Or.inl ⟨_, rfl⟩)
    | exact Or.inr (Or.inr ⟨_, rfl⟩)

theorem check_types_snd_ok (tc : BurnTypeChecker) (ast : Ast) (file_path : Str) :
    (check_types tc ast file_path).2 = .ok () := rfl

theorem pe_error_line (fuel : Nat) :
    ∀ (s : Str) (ln co : Nat) (e : ParseError),
      parse_expression fuel s ln co = .error e → e.line = ln := by
  induction fuel with
  | zero =>
    intro s ln co e h
    unfold parse_expression at h
    cases h
    rfl
  | succ fuel ih =>
    intro s ln co e h
    unfold parse_expression at h
    dsimp only at h
    repeat' split at h
    all_goals try cases h
    all_goals try rfl
    all_goals exact ih _ _ _ _ (by assumption)

theorem pvd_line (line : Str) (ln : Nat) (n : Node)
    (h : parse_variable_declaration line ln = some n) : nodeLine n = ln := by
  unfold parse_variable_declaration at h
  dsimp only at h
  repeat' split at h
  all_goals cases h
  all_goals rfl

theorem pfd_line (line : Str) (ln : Nat) (al : List Str) (n : Node)
    (h : parse_function_declaration line ln al = some n) : nodeLine n = ln := by
  unfold parse_function_declaration at h
  repeat' split at h
  all_goals cases h
  all_goals rfl

theorem psd_line (line : Str) (ln : Nat) (al : List Str) (n : Node)
    (h : parse_struct_declaration line ln al = some n) : nodeLine n = ln := by
  unfold parse_struct_declaration at h
  repeat' split at h
  all_goals cases h
  all_goals rfl

theorem pid_line (line : Str) (ln : Nat) (n : Node)
    (h : parse_import_declaration line ln = some n) : nodeLine n = ln := by
  unfold parse_import_declaration at h
  repeat' split at h
  all_goals cases h
  all_goals rfl

theorem lineOutput_node_line (lines : List Str) (idx : Nat) (line : Str)
    (n : Node) (hn : n ∈ (lineOutput lines (idx, line)).1) :
    nodeLine n = idx + 1 := by
  unfold lineOutput at hn
  dsimp only at hn
  repeat' split at hn
  all_goals simp only [List.mem_singleton, List.not_mem_nil] at hn
  all_goals subst hn
  all_goals first
    | rfl
    | exact pvd_line _ _ _ (by assumption)
    | exact pfd_line _ _ _ _ (by assumption)
    | exact psd_line _ _ _ _ (by assumption)
    | exact pid_line _ _ _ (by assumption)

theorem lineOutput_error_line (lines : List Str) (idx : Nat) (line : Str)
    (e : ParseError) (he : e ∈ (lineOutput lines (idx, line)).2) :
    e.line = idx + 1 := by
  unfold lineOutput at he
  dsimp only at he
  repeat' split at he
  all_goals simp only [List.mem_singleton, List.not_mem_nil] at he
  all_goals subst he
  all_goals exact pe_error_line _ _ _ _ _ (by assumption)

theorem findSome_mem {α β : Type} (f : α → Option β) (l : List α) (b : β)
    (h : l.findSome? f = some b) : ∃ a, a ∈ l ∧ f a = some b := by
  induction l with
  | nil => simp [List.findSome?] at h
  | cons x xs ih =>
    rw [List.findSome?_cons] at h
    cases hx : f x with
    | some v =>
      rw [hx] at h
      exact ⟨x, List.mem_cons_self x xs, by rw [hx]; exact h⟩
    | none =>
      rw [hx] at h
      obtain ⟨a, ha, hf⟩ := ih h
      exact ⟨a, List.mem_cons_of_mem x ha, hf⟩

theorem nodeDefMatch_fields (word u : Str) (n : Node) (loc : DefinitionLocation)
    (h : nodeDefMatch word u n = some loc) :
    loc.uri = u ∧ loc.line = nodeLine n ∧ loc.character = nodeColumn n := by
  unfold nodeDefMatch at h
  repeat' split at h
  all_goals cases h
  all_goals exact ⟨rfl, rfl, rfl⟩

theorem checkTypesStep_eq (vt : List (Str × Str)) (node : Node) :
    checkTypesStep vt node =
      (match declEntry node with
       | some e => insertA e.1 e.2 vt
       | none => vt) := by
  cases node <;> rfl

theorem foldl_checkStep (nodes : List Node) (acc : List (Str × Str)) :
    nodes.foldl checkTypesStep acc =
      (nodes.filterMap declEntry).foldl (fun m e => insertA e.1 e.2 m) acc := by
  induction nodes generalizing acc with
  | nil => rfl
  | cons n ns ih =>
    rw [List.foldl_cons, List.filterMap_cons, checkTypesStep_eq]
    cases hd : declEntry n with
    | some e =>
      dsimp only
      rw [List.foldl_cons, ih]
    | none =>
      dsimp only
      rw [ih]

theorem find?_append_eq {α : Type} (p : α → Bool) (l1 l2 : List α) :
    (l1 ++ l2).find? p =
      (match l1.find? p with
       | some x => some x
       | none => l2.find? p) := by
  induction l1 with
  | nil => simp
  | cons x xs ih =>
    by_cases h : p x <;> simp [List.find?_cons, h, ih]

theorem lookupA_foldl_insert (entries : List (Str × Str))
    (acc : List (Str × Str)) (q : Str) :
    lookupA q (entries.foldl (fun m e => insertA e.1 e.2 m) acc) =
      (match entries.reverse.find? (fun e => e.1 == q) with
       | some e => some e.2
       | none => lookupA q acc) := by
  induction entries generalizing acc with
  | nil => simp
  | cons e es ih =>
    rw [List.foldl_cons, ih, List.reverse_cons, find?_append_eq]
    cases hf : es.reverse.find? (fun e => e.1 == q) with
    | some v => simp
    | none =>
      rw [lookupA_insertA]
      by_cases h : e.1 = q <;> simp [List.find?_cons, h]

theorem foldl_len_sum (xs : List Str) (a : Nat) :
    xs.foldl (fun acc l => acc + (l.length + 1)) a =
      a + (xs.map (fun l => l.length + 1)).sum := by
  induction xs generalizing a with
  | nil => simp
  | cons x xs ih =>
    rw [List.foldl_cons, ih, List.map_cons, List.sum_cons]
    omega

theorem splitWsAux_ne_nil (s : Str) (acc : Str) (hacc : acc ≠ []) :
    ∃ tok toks, splitWsAux s acc = (acc.reverse ++ tok) :: toks := by
  induction s generalizing acc with
  | nil => exact ⟨[], [], by simp [splitWsAux, hacc]⟩
  | cons c rest ih =>
    by_cases hw : c.isWhitespace
    · exact ⟨[], splitWsAux rest [], by simp [splitWsAux, hw, hacc]⟩
    · obtain ⟨tok, toks, h⟩ := ih (c :: acc) (by simp)
      refine ⟨c :: tok, toks, ?_⟩
      simp only [splitWsAux, hw, Bool.false_eq_true, if_false, h,
        List.reverse_cons, List.append_assoc]
      simp

theorem splitWs_head_cons (c : Char) (rest : Str) (hw : c.isWhitespace = false)
    (kw : Str) (toks : List Str) (h : splitWs (c :: rest) = kw :: toks) :
    ∃ t, kw = c :: t := by
  unfold splitWs splitWsAux at h
  rw [hw] at h
  simp only [Bool.false_eq_true, if_false] at h
  obtain ⟨tok, toks', h2⟩ := splitWsAux_ne_nil rest [c] (by simp)
  rw [h2] at h
  simp only [List.reverse_cons, List.reverse_nil, List.nil_append,
    List.cons_append, List.nil_append] at h
  injection h with h1 _
  exact ⟨tok, h1.symm⟩

theorem startsWith_two (c1 c2 : Char) (s : Str)
    (h : startsWithStr [c1, c2] s = true) : ∃ t, s = c1 :: c2 :: t := by
  match s with
  | [] => simp [startsWithStr, List.isPrefixOf] at h
  | [a] => simp [startsWithStr, List.isPrefixOf] at h
  | a :: b :: t =>
    simp only [startsWithStr, List.isPrefixOf, List.isPrefixOf_nil_left,
      Bool.and_true, Bool.and_eq_true, beq_iff_eq] at h
    exact ⟨t, by rw [h.1, h.2]⟩

/-! ## Claim theorems -/

/-- C3: check_types returns success for every AST and every document id; its
type-error list is structurally present but no input can make it non-empty. -/
theorem c3_check_types_never_errors (tc : BurnTypeChecker) (ast : Ast)
    (file_path : Str) : (check_types tc ast file_path).2 = .ok () :=
  check_types_snd_ok tc ast file_path

/-- C10: position_to_offset errors exactly when the line index reaches the
number of lines; otherwise it returns the sum of each preceding line's length
plus one, plus the character offset clamped to the addressed line's length. -/
theorem c10_position_to_offset_spec (text : Str) (pl pc : Nat) :
    position_to_offset text pl pc =
      (if pl < (rustLines text).length then
        .ok ((((rustLines text).take pl).map (fun l => l.length + 1)).sum
          + min pc ((rustLines text).getD pl []).length)
      else .error ()) := by
  unfold position_to_offset
  dsimp only
  by_cases h : pl ≥ (rustLines text).length
  · rw [if_pos h, if_neg (by omega)]
  · rw [if_neg h, if_pos (by omega), foldl_len_sum]
    simp

theorem parsePGo_some (lines : List Str) (ps : List (Nat × Str)) :
    ∀ (acc res : List Node × List ParseError),
      parsePGo lines ps acc = some res →
      (∀ p ∈ ps, lineOutputP lines p = some (lineOutD lines p)) ∧
      res = (acc.1 ++ ps.flatMap (fun p => (lineOutD lines p).1),
             acc.2 ++ ps.flatMap (fun p => (lineOutD lines p).2)) := by
  induction ps with
  | nil =>
    intro acc res h
    unfold parsePGo at h
    cases h
    exact ⟨fun p hp => absurd hp (List.not_mem_nil p), by simp⟩
  | cons p ps ih =>
    intro acc res h
    unfold parsePGo at h
    cases hout : lineOutputP lines p with
    | none => rw [hout] at h; cases h
    | some out =>
      rw [hout] at h
      obtain ⟨hall, hres⟩ := ih _ _ h
      have hD : lineOutD lines p = out := by
        unfold lineOutD
        rw [hout]
        rfl
      refine ⟨?_, ?_⟩
      · intro q hq
        rcases List.mem_cons.mp hq with rfl | hq'
        · rw [hout, hD]
        · exact hall q hq'
      · rw [hres]
        simp [List.flatMap_cons, hD, List.append_assoc]

theorem lineOutD_err_le_one (lines : List Str) (p : Nat × Str) :
    ((lineOutD lines p).2).length ≤ 1 := by
  unfold lineOutD
  obtain ⟨idx, line⟩ := p
  unfold lineOutputP
  dsimp only
  repeat' split
  all_goals simp

/-- C6 counterexample: on a text whose first line is a lone double quote, the
parse panics inside parse_literal: the failing line contributes no ParseError,
the scan stops, and no Err(errors) result is ever produced, although a second
physical line exists that was never attempted. -/
theorem c6_counterexample :
    parseP "\"\n@@@".data = none ∧
    lineOutputP (rustLines "\"\n@@@".data) (0, "\"".data) = none ∧
    (rustLines "\"\n@@@".data).length = 2 :=
  ⟨rfl, rfl, rfl⟩

/-- C6 (amended): on every input whose parse returns at all (no line reaching
the one-character quoted token on which parse_literal panics), every physical
line is attempted and returns its contribution, all per-line errors are
collected in order into one list, a failing line contributes at most one
ParseError without stopping the scan, and the overall result is Err(errors)
exactly when that list is non-empty (never a partial AST alongside errors).
A lone-quote line instead panics, aborting the scan with no result. -/
theorem c6_parse_error_collection_no_panic (source : Str)
    (res : List Node × List ParseError)
    (h : parsePGo (rustLines source) (rustLines source).enum ([], []) = some res) :
    parseP source = some (if res.2 = [] then .ok ⟨res.1⟩ else .error res.2) ∧
    (∀ p ∈ (rustLines source).enum,
      lineOutputP (rustLines source) p = some (lineOutD (rustLines source) p)) ∧
    res.2 = (rustLines source).enum.flatMap
      (fun p => (lineOutD (rustLines source) p).2) ∧
    ∀ p ∈ (rustLines source).enum,
      ((lineOutD (rustLines source) p).2).length ≤ 1 := by
  obtain ⟨hall, hres⟩ := parsePGo_some _ _ _ _ h
  refine ⟨?_, hall, ?_, fun p _ => lineOutD_err_le_one _ p⟩
  · unfold parseP
    dsimp only
    rw [h]
  · rw [hres]
    simp

/-- C6 witness at a source with one unparseable (but non-panicking) line. -/
theorem c6_witness :
    parseP "$$$".data =
      some (.error [⟨"Failed to parse expression: $$$".data, 1, 0⟩]) ∧
    (∀ p ∈ (rustLines "$$$".data).enum,
      lineOutputP (rustLines "$$$".data) p =
        some (lineOutD (rustLines "$$$".data) p)) ∧
    ([⟨"Failed to parse expression: $$$".data, 1, 0⟩] : List ParseError) =
      (rustLines "$$$".data).enum.flatMap
        (fun p => (lineOutD (rustLines "$$$".data) p).2) ∧
    ∀ p ∈ (rustLines "$$$".data).enum,
      ((lineOutD (rustLines "$$$".data) p).2).length ≤ 1 :=
  c6_parse_error_collection_no_panic "$$$".data
    ([], [⟨"Failed to parse expression: $$$".data, 1, 0⟩]) rfl

/-- C2: after open, the stored ast is Some exactly when the parse produced
zero errors; and when the ast is absent, analyze re-parses the stored text and
returns exactly the open-time parse errors (same message, line, column). -/
theorem c2_ast_absent_iff_and_reanalyze (st : BurnAnalyzer) (uri content : Str)
    (d : Document)
    (hd : lookupA uri (open_document st uri content).documents = some d) :
    (d.ast.isSome ↔ parseErrors content = []) ∧
    (d.ast = none →
      (analyze_document (open_document st uri content) uri).2 =
        (parseErrors content).map (fun e =>
          AnalysisError.mk e.message ErrorType.ParseError e.line e.column 1)) := by
  have hdoc : (⟨uri, content,
      match parse content with
      | .ok a => some a
      | .error _ => none⟩ : Document) = d := by
    unfold open_document at hd
    dsimp only at hd
    rw [lookupA_insertA, if_pos rfl] at hd
    injection hd
  subst hdoc
  have hpc := parse_characterization content
  by_cases hp : parseErrors content = []
  · rw [if_pos hp] at hpc
    rw [hpc]
    exact ⟨by simp [hp], by intro hnone; simp at hnone⟩
  · rw [if_neg hp] at hpc
    rw [hpc]
    constructor
    · simp [hp]
    · intro _
      unfold analyze_document open_document
      dsimp only
      rw [lookupA_insertA, if_pos rfl]
      dsimp only
      rw [hpc]

/-- C2 witness: a concrete document whose open-time parse fails. -/
theorem c2_witness :
    ((⟨"file:///w2.bn".data, "var ok = 1\n@@@".data, none⟩ :
        Document).ast.isSome ↔ parseErrors "var ok = 1\n@@@".data = []) ∧
    ((⟨"file:///w2.bn".data, "var ok = 1\n@@@".data, none⟩ :
        Document).ast = none →
      (analyze_document (open_document BurnAnalyzer.new "file:///w2.bn".data
          "var ok = 1\n@@@".data) "file:///w2.bn".data).2 =
        (parseErrors "var ok = 1\n@@@".data).map (fun e =>
          AnalysisError.mk e.message ErrorType.ParseError e.line e.column 1)) :=
  c2_ast_absent_iff_and_reanalyze BurnAnalyzer.new "file:///w2.bn".data
    "var ok = 1\n@@@".data
    ⟨"file:///w2.bn".data, "var ok = 1\n@@@".data, none⟩ rfl

/-- C5 counterexample: a document with two top-level declarations of the same
name parses cleanly, yet the stored TypeEnvironment has a single entry (the
last declaration wins), so it does not contain one entry per declaration and
the first declaration's mapping (x to Number) is absent. -/
theorem c5_counterexample :
    (analyze_document (open_document BurnAnalyzer.new "file:///dup.bn".data
        "var x : Number = 1\nvar x : String = 2".data) "file:///dup.bn".data).2
      = [] ∧
    lookupA "file:///dup.bn".data
      (analyze_document (open_document BurnAnalyzer.new "file:///dup.bn".data
        "var x : Number = 1\nvar x : String = 2".data)
        "file:///dup.bn".data).1.type_checker.vars =
      some [("x".data, "String".data)] ∧
    ((lookupA "file:///dup.bn".data
        (open_document BurnAnalyzer.new "file:///dup.bn".data
          "var x : Number = 1\nvar x : String = 2".data).documents).bind
      (fun d => d.ast)).map (fun a => a.nodes.length) = some 2 :=
  ⟨rfl, rfl, rfl⟩

/-- C5 (amended): after check_types the stored TypeEnvironment for the file is
exactly the table built from the top-level declarations, holding one entry per
distinct declared name and nothing else; a name resolves to the contribution
of the LAST Variable/Function/Struct declaration of that name (per the
declEntry rules), and names declared by no such node are absent.  And for any
document whose text parses, open followed by analyze returns no errors. -/
theorem c5_env_per_name_and_clean_analyze :
    (∀ (tc : BurnTypeChecker) (ast : Ast) (file q : Str),
      lookupA file ((check_types tc ast file).1).vars = some (envOf ast) ∧
      lookupA q (envOf ast) =
        (match (ast.nodes.filterMap declEntry).reverse.find?
            (fun e => e.1 == q) with
         | some e => some e.2
         | none => none)) ∧
    (∀ (st : BurnAnalyzer) (uri content : Str) (a : Ast),
      parse content = .ok a →
      (analyze_document (open_document st uri content) uri).2 = []) := by
  constructor
  · intro tc ast file q
    constructor
    · unfold check_types
      dsimp only
      rw [if_pos rfl]
      dsimp only
      rw [lookupA_insertA, if_pos rfl]
      rfl
    · unfold envOf
      rw [foldl_checkStep, lookupA_foldl_insert]
      cases (ast.nodes.filterMap declEntry).reverse.find? (fun e => e.1 == q)
        <;> rfl
  · intro st uri content a hok
    unfold analyze_document open_document
    dsimp only
    rw [lookupA_insertA, if_pos rfl]
    dsimp only
    rw [hok]
    rfl

/-- C5 witness: a concrete fully-parsing document analyzed without errors. -/
theorem c5_witness :
    (analyze_document (open_document BurnAnalyzer.new "file:///w5.bn".data
        "struct S \x7b".data) "file:///w5.bn".data).2 = [] :=
  c5_env_per_name_and_clean_analyze.2 BurnAnalyzer.new "file:///w5.bn".data
    "struct S \x7b".data ⟨[.StructDeclaration "S".data [] 1 1]⟩ rfl

/-- C7: with a document declaring struct Point and another referencing Point
both open (in either insertion order), findDefinition on the referencing
document at a position inside the word Point returns the location in the
declaring document. -/
theorem c7_cross_document_definition :
    find_definition (open_document (open_document BurnAnalyzer.new
        "file:///point.bn".data "struct Point \x7b\n\x7d".data)
      "file:///use.bn".data "var p : Point = 1".data)
      "file:///use.bn".data 0 9 =
      some ⟨"file:///point.bn".data, 1, 1⟩ ∧
    find_definition (open_document (open_document BurnAnalyzer.new
        "file:///use.bn".data "var p : Point = 1".data)
      "file:///point.bn".data "struct Point \x7b\n\x7d".data)
      "file:///use.bn".data 0 9 =
      some ⟨"file:///point.bn".data, 1, 1⟩ :=
  ⟨rfl, rfl⟩

/-- C4 counterexample: with the colon adjacent to the name, exactly as the
grammar writes it (var x: String = 1), the produced VariableDeclaration has
data_type none — the declared type String is dropped (and the initializer is
lost with it). -/
theorem c4_counterexample :
    parse_variable_declaration "var x: String = 1".data 1 =
      some (.VariableDeclaration "x".data none none true 1 0) ∧
    (parse_variable_declaration "var x: String = 1".data 1).bind nodeDataType
      = none ∧
    parse "var x: String = 1".data =
      .ok ⟨[.VariableDeclaration "x".data none none true 1 0]⟩ :=
  ⟨rfl, rfl, rfl⟩

/-- C4 (amended): the declared type is kept only when the colon stands as its
own whitespace-delimited token and an initializer token follows the type: for
any single-line source whose line splits into kw name ":" ty "=" es with kw
in var/let/const, name carrying no trailing colon, and an initializer whose
expression evaluation returns (does not reach parse_literal's lone-quote
panic), parsing yields exactly one VariableDeclaration whose data_type is
Basic ty and whose is_mutable flag is true iff kw is not const.  (With the
colon adjacent to the name the declared type is dropped, with nothing after
the type the line is not recognized as a variable declaration at all, and
with a lone-quote initializer the program panics instead of returning.) -/
theorem c4_tokenized_var_decl_no_panic (source line kw name ty : Str)
    (es : List Str)
    (hlines : rustLines source = [line])
    (htrim : trimStr line = line)
    (hsplit : splitWs line = kw :: name :: ":".data :: ty :: "=".data :: es)
    (hkw : kw = "var".data ∨ kw = "let".data ∨ kw = "const".data)
    (hname : trimEndMatches ':' name = name)
    (hnp : (parse_expressionP ((trimEndMatches ';' (joinSpace es)).length + 1)
        (trimEndMatches ';' (joinSpace es)) 1
        (((charIdx (fun c => c = '=') line).getD 0) + 1)).isSome = true) :
    ∃ init, parseP source =
      some (.ok ⟨[.VariableDeclaration name init (some (.Basic ty))
        (decide (kw ≠ "const".data)) 1 0]⟩) := by
  obtain ⟨rIni, hrIni⟩ := Option.isSome_iff_exists.mp hnp
  have hne : line ≠ [] := by
    intro h
    rw [h] at hsplit
    simp [splitWs, splitWsAux] at hsplit
  have hns : startsWithStr "//".data line = false := by
    by_contra hcon
    rw [Bool.not_eq_false] at hcon
    obtain ⟨t, ht⟩ := startsWith_two '/' '/' line hcon
    rw [ht] at hsplit
    obtain ⟨tt, hkw2⟩ := splitWs_head_cons '/' ('/' :: t) (by decide) kw _ hsplit
    have hh := congrArg List.head? hkw2
    rw [List.head?_cons] at hh
    rcases hkw with h | h | h <;> (rw [h] at hh; exact absurd hh (by decide))
  have hpvdP : parse_variable_declarationP line 1 =
      some (some (.VariableDeclaration name rIni.toOption (some (.Basic ty))
        (decide (kw ≠ "const".data)) 1 0)) := by
    unfold parse_variable_declarationP
    rw [hsplit]
    dsimp only
    rw [if_neg (by
      rintro ⟨h1, h2, h3⟩
      rcases hkw with h | h | h
      exacts [h1 h, h2 h, h3 h])]
    try dsimp only
    rw [if_pos rfl]
    try dsimp only
    rw [if_pos rfl, hrIni, hname]
  have hloP : lineOutputP [line] (0, line) =
      some ([.VariableDeclaration name rIni.toOption (some (.Basic ty))
        (decide (kw ≠ "const".data)) 1 0], []) := by
    unfold lineOutputP
    dsimp only
    rw [htrim]
    rw [if_neg (by
      rintro (h | h)
      · exact hne h
      · rw [hns] at h
        cases h)]
    rw [Nat.zero_add, hpvdP]
  refine ⟨rIni.toOption, ?_⟩
  unfold parseP
  rw [hlines]
  simp [List.enum, List.enumFrom, parsePGo, hloP]

/-- C4 witness at a concrete line with standalone colon, initializer and
semicolon. -/
theorem c4_witness :
    ∃ init, parseP "let y : Number = 2;".data =
      some (.ok ⟨[.VariableDeclaration "y".data init
        (some (.Basic "Number".data)) true 1 0]⟩) :=
  c4_tokenized_var_decl_no_panic "let y : Number = 2;".data
    "let y : Number = 2;".data "let".data "y".data "Number".data
    ["2;".data] rfl rfl rfl (Or.inr (Or.inl rfl)) rfl rfl

/-- C8 counterexample: with no document ever marked current, member lookup on
a struct owner type returns none, not "any". -/
theorem c8_counterexample :
    get_property_type BurnTypeChecker.new "struct Point".data "x".data = none ∧
    get_property_type BurnTypeChecker.new "struct Point".data "x".data ≠
      some "any".data :=
  ⟨rfl, by decide⟩

/-- C8 (amended): for every owner type beginning with "struct " and every
member name, get_property_type answers "any" when some document has been
marked current, and none when no document has ever been marked current. -/
theorem c8_struct_member_any_iff_current (tc : BurnTypeChecker)
    (owner member : Str) (h : startsWithStr "struct ".data owner = true) :
    get_property_type tc owner member =
      (match tc.current_file with
       | some _ => some "any".data
       | none => none) := by
  have h1 : owner ≠ "String".data := by
    intro he; rw [he] at h; exact absurd h (by decide)
  have h2 : owner ≠ "Array".data := by
    intro he; rw [he] at h; exact absurd h (by decide)
  have h3 : owner ≠ "Date".data := by
    intro he; rw [he] at h; exact absurd h (by decide)
  have h4 : owner ≠ "Http".data := by
    intro he; rw [he] at h; exact absurd h (by decide)
  have h5 : owner ≠ "Time".data := by
    intro he; rw [he] at h; exact absurd h (by decide)
  unfold get_property_type
  rw [if_neg h1, if_neg h2, if_neg h3, if_neg h4, if_neg h5, if_pos h]

/-- C8 witness: with a current file set, a struct member resolves to any. -/
theorem c8_witness :
    get_property_type ⟨[], none, some "file:///w8.bn".data⟩
      "struct P".data "y".data = some "any".data :=
  c8_struct_member_any_iff_current ⟨[], none, some "file:///w8.bn".data⟩
    "struct P".data "y".data (by decide)

/-- C9: every node and parse error is produced by the line at some 0-based
index idx and carries stored line idx + 1; and find_definition returns a
matched declaration's stored line and column unchanged, although its own
position arguments are 0-based host coordinates. -/
theorem c9_one_based_lines :
    (∀ (source : Str) (n : Node), n ∈ parseNodes source →
      ∃ p, p ∈ (rustLines source).enum ∧
        n ∈ (lineOutput (rustLines source) p).1 ∧ nodeLine n = p.1 + 1) ∧
    (∀ (source : Str) (e : ParseError), e ∈ parseErrors source →
      ∃ p, p ∈ (rustLines source).enum ∧
        e ∈ (lineOutput (rustLines source) p).2 ∧ e.line = p.1 + 1) ∧
    (∀ (st : BurnAnalyzer) (uri : Str) (l ch : Nat) (loc : DefinitionLocation),
      find_definition st uri l ch = some loc →
      ∃ q, q ∈ st.documents ∧ ∃ ast, q.2.ast = some ast ∧
        ∃ n, n ∈ ast.nodes ∧ loc.line = nodeLine n ∧
          loc.character = nodeColumn n) := by
  refine ⟨?_, ?_, ?_⟩
  · intro source n hn
    rw [parseNodes_eq_bind, List.mem_flatMap] at hn
    obtain ⟨p, hp, hmem⟩ := hn
    exact ⟨p, hp, hmem, lineOutput_node_line _ p.1 p.2 n hmem⟩
  · intro source e he
    rw [parseErrors_eq_bind, List.mem_flatMap] at he
    obtain ⟨p, hp, hmem⟩ := he
    exact ⟨p, hp, hmem, lineOutput_error_line _ p.1 p.2 e hmem⟩
  · intro st uri l ch loc h
    unfold find_definition at h
    repeat' split at h
    all_goals try exact Option.noConfusion h
    obtain ⟨q, hq, hf⟩ := findSome_mem _ _ _ h
    try dsimp only at hf
    split at hf
    · obtain ⟨n, hn, hm⟩ := findSome_mem _ _ _ hf
      obtain ⟨hu, hl, hc⟩ := nodeDefMatch_fields _ _ _ _ hm
      rename_i ast hast
      exact ⟨q, hq, ast, hast, n, hn, hl, hc⟩
    · exact Option.noConfusion hf

/-- C9 witness: a 0-based query whose answer is the 1-based stored location of
the matched declaration. -/
theorem c9_witness :
    ∃ q, q ∈ (open_document BurnAnalyzer.new "file:///w9.bn".data
        "fn foo() \x7b".data).documents ∧
      ∃ ast, q.2.ast = some ast ∧ ∃ n, n ∈ ast.nodes ∧
        (1 : Nat) = nodeLine n ∧ (1 : Nat) = nodeColumn n :=
  c9_one_based_lines.2.2 (open_document BurnAnalyzer.new "file:///w9.bn".data
      "fn foo() \x7b".data) "file:///w9.bn".data 0 4
    ⟨"file:///w9.bn".data, 1, 1⟩ rfl

/-- C1 (observed behavior at the claimed input): for the document var x:
String = "hi" with trailing x., open and analyze succeed, but hovering over x
renders "**x**: any" — which does not contain String — and completion after
the dot returns the empty list rather than the String member list, because
parse_variable_declaration drops the type annotation when the colon is
attached to the name and an "any" owner has no member table. -/
theorem c1_hover_completion_observed :
    (analyze_document (open_document BurnAnalyzer.new "file:///a.bn".data
        "var x: String = \"hi\"\nx.".data) "file:///a.bn".data).2 = [] ∧
    on_hover (analyze_document (open_document BurnAnalyzer.new
        "file:///a.bn".data "var x: String = \"hi\"\nx.".data)
        "file:///a.bn".data).1.type_checker
      "var x: String = \"hi\"\nx.".data 0 4 =
      .ok (some ⟨"**x**: any".data, some ((0, 4), (0, 5))⟩) ∧
    containsSub "**x**: any".data "String".data = false ∧
    get_completions (analyze_document (open_document BurnAnalyzer.new
        "file:///a.bn".data "var x: String = \"hi\"\nx.".data)
        "file:///a.bn".data).1.type_checker
      "var x: String = \"hi\"\nx.".data 1 2 = [] :=
  ⟨rfl, rfl, rfl, rfl⟩

end Burn
